import Mathlib

/-!
Verification of the MNIST IDX decoder in `src/mnist.h`.

The C header is shallowly embedded: machine integers become `Nat`/`Int`
with explicit reductions modulo `2 ^ 32` (and, for `size_t`, `2 ^ 64`)
exactly where the C arithmetic is fixed-width; file contents become
`List Nat` of byte values; the `FILE *` handle, `malloc` and `fread`
side effects become explicit fields of the loader results.
-/

namespace Mnist

/-- Big-endian interpretation of four bytes as an unsigned 32-bit value
(the wire order of every header field of the IDX format). -/
def beU32 (b0 b1 b2 b3 : Nat) : Nat :=
  b0 * 16777216 + b1 * 65536 + b2 * 256 + b3

/-- Little-endian interpretation of four bytes as an unsigned 32-bit value:
the value a little-endian host sees after `fread` stores the four file
bytes into a `u32` in memory order. -/
def leU32 (b0 b1 b2 b3 : Nat) : Nat :=
  b3 * 16777216 + b2 * 65536 + b1 * 256 + b0

/-- The four bytes of a 32-bit value in little-endian memory order
(least significant byte first). -/
def u32BytesLE (v : Nat) : List Nat :=
  [v % 256, v / 256 % 256, v / 65536 % 256, v / 16777216 % 256]

/-- Embedding of the C probe `is_big_endian` (`int v = 1;` followed by
`*(char *)(&v) == 0`): it reports the host's endianness, which the
embedding passes in as the parameter `hostBig`. -/
def is_big_endian (hostBig : Bool) : Bool := hostBig

/-- Embedding of `swap_endianness_u32` from `src/mnist.h`:
`ret |= v >> 24; ret |= (v & 0xFF0000) >> 8; ret |= (v & 0xFF00) << 8;
ret |= v << 24;` -- the 32-bit wraparound of `v << 24` is made explicit. -/
def swap_endianness_u32 (v : Nat) : Nat :=
  ((v >>> 24) ||| ((v &&& 0xFF0000) >>> 8)) ||| ((v &&& 0xFF00) <<< 8) |||
    ((v <<< 24) % 4294967296)

lemma land_byte (v k : Nat) : v &&& (255 <<< k) = ((v >>> k) % 2 ^ 8) <<< k := by
  apply Nat.eq_of_testBit_eq
  intro j
  have h255 : (255 : Nat) = 2 ^ 8 - 1 := by norm_num
  simp only [Nat.testBit_and, Nat.testBit_shiftLeft, Nat.testBit_shiftRight,
    Nat.testBit_mod_two_pow, h255, Nat.testBit_two_pow_sub_one]
  rcases Nat.lt_or_ge j k with hj | hj
  · simp [show ¬ (j ≥ k) from by omega]
  · have hk : k + (j - k) = j := by omega
    simp only [show (j ≥ k) from hj, decide_True, Bool.true_and, hk]
    rcases Nat.lt_or_ge (j - k) 8 with h8 | h8
    · simp [h8]
    · simp [show ¬ (j - k < 8) from by omega]

lemma land_byte_arith (v k : Nat) :
    v &&& (255 <<< k) = v / 2 ^ k % 2 ^ 8 * 2 ^ k := by
  rw [land_byte, Nat.shiftLeft_eq, Nat.shiftRight_eq_div_pow]

lemma or_bytes_eq_add (a b c d : Nat) (ha : a < 2 ^ 8) (hb : b < 2 ^ 8)
    (hc : c < 2 ^ 8) :
    ((a ||| 2 ^ 8 * b) ||| 2 ^ 16 * c) ||| 2 ^ 24 * d =
      2 ^ 24 * d + (2 ^ 16 * c + (2 ^ 8 * b + a)) := by
  have h1 : a ||| 2 ^ 8 * b = 2 ^ 8 * b + a :=
    (Nat.or_comm _ _).trans (Nat.mul_add_lt_is_or ha b).symm
  have hb1 : 2 ^ 8 * b + a < 2 ^ 16 := by
    have h8 : (2 : Nat) ^ 8 = 256 := by norm_num
    have h16 : (2 : Nat) ^ 16 = 65536 := by norm_num
    rw [h8] at ha hb ⊢
    rw [h16]
    omega
  have h2 : (2 ^ 8 * b + a) ||| 2 ^ 16 * c = 2 ^ 16 * c + (2 ^ 8 * b + a) :=
    (Nat.or_comm _ _).trans (Nat.mul_add_lt_is_or hb1 c).symm
  have hc1 : 2 ^ 16 * c + (2 ^ 8 * b + a) < 2 ^ 24 := by
    have h16 : (2 : Nat) ^ 16 = 65536 := by norm_num
    have h24 : (2 : Nat) ^ 24 = 16777216 := by norm_num
    have h8 : (2 : Nat) ^ 8 = 256 := by norm_num
    rw [h16] at *
    rw [h24]
    rw [h8] at *
    omega
  have h3 : (2 ^ 16 * c + (2 ^ 8 * b + a)) ||| 2 ^ 24 * d =
      2 ^ 24 * d + (2 ^ 16 * c + (2 ^ 8 * b + a)) :=
    (Nat.or_comm _ _).trans (Nat.mul_add_lt_is_or hc1 d).symm
  rw [h1, h2, h3]

/-- Arithmetic characterization of the C byte swap: for a genuine `u32`
input it produces exactly the byte-reversed value. -/
lemma swap_endianness_u32_eq (v : Nat) (hv : v < 4294967296) :
    swap_endianness_u32 v =
      v % 256 * 16777216 + v / 256 % 256 * 65536 + v / 65536 % 256 * 256 +
        v / 16777216 := by
  have e1 : v >>> 24 = v / 2 ^ 24 := Nat.shiftRight_eq_div_pow v 24
  have e2 : (v &&& 0xFF0000) >>> 8 = 2 ^ 8 * (v / 2 ^ 16 % 2 ^ 8) := by
    have hm : (0xFF0000 : Nat) = 255 <<< 16 := by
      rw [Nat.shiftLeft_eq]
    rw [hm, land_byte_arith, Nat.shiftRight_eq_div_pow]
    norm_num
    omega
  have e3 : (v &&& 0xFF00) <<< 8 = 2 ^ 16 * (v / 2 ^ 8 % 2 ^ 8) := by
    have hm : (0xFF00 : Nat) = 255 <<< 8 := by
      rw [Nat.shiftLeft_eq]
    rw [hm, land_byte_arith, Nat.shiftLeft_eq]
    norm_num
    omega
  have e4 : (v <<< 24) % 4294967296 = 2 ^ 24 * (v % 2 ^ 8) := by
    rw [Nat.shiftLeft_eq]
    norm_num
    omega
  rw [swap_endianness_u32, e1, e2, e3, e4,
    or_bytes_eq_add (v / 2 ^ 24) (v / 2 ^ 16 % 2 ^ 8) (v / 2 ^ 8 % 2 ^ 8)
      (v % 2 ^ 8) (by norm_num; omega) (Nat.mod_lt _ (by norm_num))
      (Nat.mod_lt _ (by norm_num))]
  norm_num
  omega

/-- Result struct `mnist_labels` (`int count; unsigned char *data; int valid;`).
A `data` of `none` models a null pointer. -/
structure mnist_labels where
  count : Int
  data : Option (List Nat)
  valid : Bool
deriving Repr, DecidableEq

/-- View struct `mnist_image` (`int rows; int columns; unsigned char *data;`).
The C pointer becomes the byte segment the view designates. -/
structure mnist_image where
  rows : Int
  columns : Int
  data : List Nat
deriving Repr, DecidableEq

/-- Result struct `mnist_images`
(`int count; int rows; int columns; unsigned char *data; int valid;`). -/
structure mnist_images where
  count : Int
  rows : Int
  columns : Int
  data : Option (List Nat)
  valid : Bool
deriving Repr, DecidableEq

/-- The possible states of the `filepath` argument and the `fopen` call:
a null path, a path `fopen` rejects, or an opened file with its contents
as a list of byte values. -/
inductive CFile where
  | nullPath : CFile
  | openFail : CFile
  | content : List Nat → CFile
deriving Repr, DecidableEq

/-- A loader result together with the observable effects of the call:
whether `fopen` was attempted and succeeded, whether `fclose` ran before
the return, whether `malloc` produced a payload buffer, whether the
payload `fread` ran, and whether an allocated buffer was released by
`free` rather than returned. -/
structure LoadOut (α : Type) where
  result : α
  openAttempted : Bool
  openSucceeded : Bool
  fileClosed : Bool
  bufAllocated : Bool
  payloadReadAttempted : Bool
  bufFreed : Bool
deriving Repr, DecidableEq

/-- The raw `u32` value of a header field after `fread` stores four file
bytes into it in memory order, on a host of the given endianness. -/
def readFieldRaw (hostBig : Bool) (b0 b1 b2 b3 : Nat) : Nat :=
  if hostBig then beU32 b0 b1 b2 b3 else leU32 b0 b1 b2 b3

/-- Header-field normalization exactly as both loaders perform it:
`if (!is_big_endian()) field = swap_endianness_u32(field);`. -/
def normalizeField (hostBig : Bool) (raw : Nat) : Nat :=
  if is_big_endian hostBig then raw else swap_endianness_u32 raw

/-- The normalized value of the header field stored in file bytes
`b0 b1 b2 b3`, as the loaders obtain it. -/
def headerField (hostBig : Bool) (b0 b1 b2 b3 : Nat) : Nat :=
  normalizeField hostBig (readFieldRaw hostBig b0 b1 b2 b3)

/-- On either host endianness, a normalized header field is the big-endian
value of its four file bytes. -/
lemma headerField_eq_beU32 (hostBig : Bool) (b0 b1 b2 b3 : Nat)
    (h0 : b0 < 256) (h1 : b1 < 256) (h2 : b2 < 256) (h3 : b3 < 256) :
    headerField hostBig b0 b1 b2 b3 = beU32 b0 b1 b2 b3 := by
  cases hostBig with
  | true => simp [headerField, normalizeField, is_big_endian, readFieldRaw]
  | false =>
    simp only [headerField, normalizeField, is_big_endian, readFieldRaw,
      Bool.false_eq_true, if_false]
    rw [swap_endianness_u32_eq]
    · simp only [leU32, beU32]
      omega
    · simp only [leU32]
      omega

/-- Conversion of a `u32` value to a 32-bit C `int`, with the
two's-complement wraparound mainstream compilers apply to values of
`2 ^ 31` and above. -/
def toInt32 (n : Nat) : Int :=
  if n % 4294967296 < 2147483648 then ((n % 4294967296 : Nat) : Int)
  else ((n % 4294967296 : Nat) : Int) - 4294967296

/-- Conversion of a C `int` to the 64-bit `size_t` that `malloc` and
`fread` receive: negative values wrap modulo `2 ^ 64`. -/
def intToSizeT (i : Int) : Nat :=
  (i % 18446744073709551616).toNat

/-- The all-zero struct `mnist_labels labels = {0};`. -/
def zeroLabels : mnist_labels := ⟨0, none, false⟩

/-- The all-zero struct `mnist_images images = {0};`. -/
def zeroImages : mnist_images := ⟨0, 0, 0, none, false⟩

/-- Embedding of `mnist_load_labels`. Beyond the file model, `hostBig` is
the endianness `is_big_endian` probes and `allocOk` says whether the
single `malloc` of the call succeeds. Note the source returns without
`fclose(fp)` on the `malloc`-failure path. -/
def mnist_load_labels (hostBig : Bool) (allocOk : Bool) (file : CFile) :
    LoadOut mnist_labels :=
  match file with
  | .nullPath => ⟨zeroLabels, false, false, false, false, false, false⟩
  | .openFail => ⟨zeroLabels, true, false, false, false, false, false⟩
  | .content bytes =>
    if bytes.length < 8 then
      ⟨zeroLabels, true, true, true, false, false, false⟩
    else
      let magic := headerField hostBig (bytes.getD 0 0) (bytes.getD 1 0)
        (bytes.getD 2 0) (bytes.getD 3 0)
      let items := headerField hostBig (bytes.getD 4 0) (bytes.getD 5 0)
        (bytes.getD 6 0) (bytes.getD 7 0)
      if magic ≠ 0x00000801 then
        ⟨zeroLabels, true, true, true, false, false, false⟩
      else if ¬ allocOk then
        ⟨zeroLabels, true, true, false, false, false, false⟩
      else
        let rest := bytes.drop 8
        if rest.length < items then
          ⟨zeroLabels, true, true, true, true, true, true⟩
        else
          ⟨⟨toInt32 items, some (rest.take items), true⟩, true, true, true,
            true, true, false⟩

/-- Embedding of `mnist_load_images`, with the same conventions as
`mnist_load_labels`. The payload size is computed as the C `int size =
images * rows * columns` does: `u32` multiplication modulo `2 ^ 32`
followed by the wrap into `int`; `fread` then receives that value
converted to `size_t`. The source returns without `fclose(fp)` on the
`malloc`-failure path. -/
def mnist_load_images (hostBig : Bool) (allocOk : Bool) (file : CFile) :
    LoadOut mnist_images :=
  match file with
  | .nullPath => ⟨zeroImages, false, false, false, false, false, false⟩
  | .openFail => ⟨zeroImages, true, false, false, false, false, false⟩
  | .content bytes =>
    if bytes.length < 16 then
      ⟨zeroImages, true, true, true, false, false, false⟩
    else
      let magic := headerField hostBig (bytes.getD 0 0) (bytes.getD 1 0)
        (bytes.getD 2 0) (bytes.getD 3 0)
      let nimg := headerField hostBig (bytes.getD 4 0) (bytes.getD 5 0)
        (bytes.getD 6 0) (bytes.getD 7 0)
      let nrow := headerField hostBig (bytes.getD 8 0) (bytes.getD 9 0)
        (bytes.getD 10 0) (bytes.getD 11 0)
      let ncol := headerField hostBig (bytes.getD 12 0) (bytes.getD 13 0)
        (bytes.getD 14 0) (bytes.getD 15 0)
      if magic ≠ 0x00000803 then
        ⟨zeroImages, true, true, true, false, false, false⟩
      else
        let size : Int := toInt32 (nimg * nrow * ncol)
        if ¬ allocOk then
          ⟨zeroImages, true, true, false, false, false, false⟩
        else
          let szN := intToSizeT size
          let rest := bytes.drop 16
          if rest.length < szN then
            ⟨zeroImages, true, true, true, true, true, true⟩
          else
            ⟨⟨toInt32 nimg, toInt32 nrow, toInt32 ncol,
              some (rest.take szN), true⟩, true, true, true, true, true,
              false⟩

/-- Embedding of `mnist_get_label` (`return labels.data[index];`): the C
read is undefined behavior when `data` is null or `index` lies outside the
buffer; the embedding marks those reads as `none`. No bounds check exists
in the source. -/
def mnist_get_label (labels : mnist_labels) (index : Int) : Option Nat :=
  match labels.data with
  | none => none
  | some bs =>
    if 0 ≤ index ∧ index < (bs.length : Int) then some (bs.getD index.toNat 0)
    else none

/-- Embedding of `mnist_get_image`: rows and columns are copied, and the
unchecked C pointer `&images.data[images.rows * images.columns * index]`
becomes the byte segment of length `rows * columns` starting at that
offset -- the span the IDX format assigns to one image (the source stores
no explicit length in the view). -/
def mnist_get_image (images : mnist_images) (index : Int) : mnist_image :=
  { rows := images.rows
    columns := images.columns
    data :=
      match images.data with
      | none => []
      | some bs =>
        (bs.drop (images.rows * images.columns * index).toNat).take
          (images.rows * images.columns).toNat }

/-- The two glyphs `mnist_print_image` emits per pixel: `ink` for
`printf("##")` and `blank` for `printf("  ")`. -/
inductive PixelGlyph where
  | ink : PixelGlyph
  | blank : PixelGlyph
deriving Repr, DecidableEq

/-- Embedding of `mnist_print_image` as the grid of glyphs it prints: for
each `row < rows` and `col < columns`, the pixel
`data[col + row * columns]` renders as `ink` when `v >= threshold` and as
`blank` otherwise. -/
def mnist_print_image (image : mnist_image) (threshold : Nat) :
    List (List PixelGlyph) :=
  (List.range image.rows.toNat).map fun row =>
    (List.range image.columns.toNat).map fun col =>
      if threshold ≤ image.data.getD (col + row * image.columns.toNat) 0
      then PixelGlyph.ink else PixelGlyph.blank

/-- C10: for a null path argument both loaders return the all-zero result
(count 0, null buffer, valid false) without attempting to open any file or
perform any other I/O. -/
theorem c10_null_path_no_io :
    (∀ hostBig allocOk : Bool,
      mnist_load_labels hostBig allocOk CFile.nullPath =
        ⟨zeroLabels, false, false, false, false, false, false⟩) ∧
    (∀ hostBig allocOk : Bool,
      mnist_load_images hostBig allocOk CFile.nullPath =
        ⟨zeroImages, false, false, false, false, false, false⟩) :=
  ⟨fun _ _ => rfl, fun _ _ => rfl⟩

/-- Witness for C10 on a little-endian host with a working allocator. -/
theorem c10_witness :
    mnist_load_labels false true CFile.nullPath =
      ⟨zeroLabels, false, false, false, false, false, false⟩ ∧
    mnist_load_images false true CFile.nullPath =
      ⟨zeroImages, false, false, false, false, false, false⟩ :=
  ⟨c10_null_path_no_io.1 false true, c10_null_path_no_io.2 false true⟩

/-- C5: whenever the normalized magic field of an opened file differs from
the format constant (0x00000801 for labels, 0x00000803 for images), the
loader returns the all-zero invalid result, allocates no payload buffer
and performs no payload read. -/
theorem c5_magic_mismatch_rejected :
    (∀ (hostBig allocOk : Bool) (bytes : List Nat),
      ¬ bytes.length < 8 →
      headerField hostBig (bytes.getD 0 0) (bytes.getD 1 0) (bytes.getD 2 0)
        (bytes.getD 3 0) ≠ 0x00000801 →
      mnist_load_labels hostBig allocOk (.content bytes) =
        ⟨zeroLabels, true, true, true, false, false, false⟩) ∧
    (∀ (hostBig allocOk : Bool) (bytes : List Nat),
      ¬ bytes.length < 16 →
      headerField hostBig (bytes.getD 0 0) (bytes.getD 1 0) (bytes.getD 2 0)
        (bytes.getD 3 0) ≠ 0x00000803 →
      mnist_load_images hostBig allocOk (.content bytes) =
        ⟨zeroImages, true, true, true, false, false, false⟩) := by
  constructor
  · intro hostBig allocOk bytes hlen hmagic
    simp only [List.getD_eq_getElem?_getD] at hmagic
    simp [mnist_load_labels, hlen, hmagic]
  · intro hostBig allocOk bytes hlen hmagic
    simp only [List.getD_eq_getElem?_getD] at hmagic
    simp [mnist_load_images, hlen, hmagic]

/-- Witness for C5: an image file handed to the label loader and a label
file handed to the image loader are both rejected without allocation. -/
theorem c5_witness :
    mnist_load_labels true true
      (.content [0, 0, 8, 3, 0, 0, 0, 2, 7, 3]) =
      ⟨zeroLabels, true, true, true, false, false, false⟩ ∧
    mnist_load_images false true
      (.content [0, 0, 8, 1, 0, 0, 0, 2, 0, 0, 0, 2, 0, 0, 0, 2]) =
      ⟨zeroImages, true, true, true, false, false, false⟩ :=
  ⟨c5_magic_mismatch_rejected.1 true true _ (by decide) (by decide),
   c5_magic_mismatch_rejected.2 false true _ (by decide) (by decide)⟩

/-- C3 (code bug): on the `malloc`-failure path both loaders return
without closing the file they opened. At these valid-header inputs the
open succeeds, the allocation fails, and `fclose` never runs, so the
handle leaks -- contradicting the claim that every exit path closes the
file. -/
theorem c3_alloc_failure_leaks_file :
    ((mnist_load_labels true false
        (.content [0, 0, 8, 1, 0, 0, 0, 1, 7])).openSucceeded = true ∧
      (mnist_load_labels true false
        (.content [0, 0, 8, 1, 0, 0, 0, 1, 7])).fileClosed = false) ∧
    ((mnist_load_images true false
        (.content [0, 0, 8, 3, 0, 0, 0, 1, 0, 0, 0, 1, 0, 0, 0, 1,
          9])).openSucceeded = true ∧
      (mnist_load_images true false
        (.content [0, 0, 8, 3, 0, 0, 0, 1, 0, 0, 0, 1, 0, 0, 0, 1,
          9])).fileClosed = false) := by
  decide

/-- C1 (code bug): the image payload size is computed in 32-bit
arithmetic. For a header declaring 65536 images of 256 x 256 the product
`count * rows * columns = 2 ^ 32` wraps to 0, so this header-only file is
accepted as valid with an empty buffer whose length differs from the
declared product. -/
theorem c1_size_overflow_eval :
    (mnist_load_images true true
      (.content [0, 0, 8, 3, 0, 1, 0, 0, 0, 0, 1, 0, 0, 0, 1,
        0])).result.valid = true ∧
    (mnist_load_images true true
      (.content [0, 0, 8, 3, 0, 1, 0, 0, 0, 0, 1, 0, 0, 0, 1,
        0])).result.data = some [] ∧
    (mnist_load_images true true
      (.content [0, 0, 8, 3, 0, 1, 0, 0, 0, 0, 1, 0, 0, 0, 1,
        0])).result.count *
      (mnist_load_images true true
        (.content [0, 0, 8, 3, 0, 1, 0, 0, 0, 0, 1, 0, 0, 0, 1,
          0])).result.rows *
      (mnist_load_images true true
        (.content [0, 0, 8, 3, 0, 1, 0, 0, 0, 0, 1, 0, 0, 0, 1,
          0])).result.columns = 4294967296 := by
  decide

/-- C2 (code bug): the accessors perform no bounds check. At these
out-of-range indices (index = count and index = -1) the C code reads
memory adjacent to the buffer -- undefined behavior marked `none` in the
embedding -- and no IndexOutOfRange failure exists anywhere in the source:
`mnist_get_image` silently yields a view past the end of the buffer. -/
theorem c2_unchecked_access_eval :
    mnist_get_label ⟨2, some [7, 3], true⟩ 2 = none ∧
    mnist_get_label ⟨2, some [7, 3], true⟩ (-1) = none ∧
    (mnist_get_image ⟨2, 2, 2, some [1, 2, 3, 4, 5, 6, 7, 8], true⟩
      2).data = [] := by
  decide

lemma toInt32_of_lt (n : Nat) (h : n < 2147483648) : toInt32 n = n := by
  have h32 : n % 4294967296 = n := Nat.mod_eq_of_lt (by omega)
  simp [toInt32, h32, h]

lemma intToSizeT_natCast (n : Nat) (h : n < 18446744073709551616) :
    intToSizeT (n : Int) = n := by
  unfold intToSizeT
  rw [Int.emod_eq_of_lt (Int.natCast_nonneg n) (by exact_mod_cast h)]
  simp

lemma intToSizeT_toInt32_of_lt (p : Nat) (h : p < 2147483648) :
    intToSizeT (toInt32 p) = p := by
  rw [toInt32_of_lt p h, intToSizeT_natCast p (by omega)]

/-- C6 counterexample: a truncation the 32-bit size computation hides.
This file's header declares 16384 images of 512 x 512 -- a payload of
`16384 * 512 * 512 = 2 ^ 32` bytes -- and carries a single payload byte,
yet the loader accepts it as valid: the computed size wraps to 0, the
short payload goes undetected, and an empty buffer is exposed. -/
theorem c6_counterexample :
    (mnist_load_images true true
      (.content [0, 0, 8, 3, 0, 0, 64, 0, 0, 0, 2, 0, 0, 0, 2, 0,
        9])).result.valid = true ∧
    (mnist_load_images true true
      (.content [0, 0, 8, 3, 0, 0, 64, 0, 0, 0, 2, 0, 0, 0, 2, 0,
        9])).result.data = some [] ∧
    beU32 0 0 64 0 * beU32 0 0 2 0 * beU32 0 0 2 0 = 4294967296 := by
  decide

/-- C6 amended: a file with a valid header but fewer payload bytes than
declared is rejected with the all-zero invalid result and the allocated
buffer is freed, never exposed -- unconditionally for label files, and
for image files provided the declared payload `count * rows * columns`
stays within the 32-bit `int` size computation (below 2 ^ 31); the
counterexample shows the guarantee fails when the product overflows. -/
theorem c6_truncation_rejected :
    (∀ (hostBig : Bool) (bytes : List Nat),
      ¬ bytes.length < 8 →
      headerField hostBig (bytes.getD 0 0) (bytes.getD 1 0) (bytes.getD 2 0)
        (bytes.getD 3 0) = 0x00000801 →
      (bytes.drop 8).length <
        headerField hostBig (bytes.getD 4 0) (bytes.getD 5 0)
          (bytes.getD 6 0) (bytes.getD 7 0) →
      mnist_load_labels hostBig true (.content bytes) =
        ⟨zeroLabels, true, true, true, true, true, true⟩) ∧
    (∀ (hostBig : Bool) (bytes : List Nat),
      ¬ bytes.length < 16 →
      headerField hostBig (bytes.getD 0 0) (bytes.getD 1 0) (bytes.getD 2 0)
        (bytes.getD 3 0) = 0x00000803 →
      headerField hostBig (bytes.getD 4 0) (bytes.getD 5 0) (bytes.getD 6 0)
          (bytes.getD 7 0) *
        headerField hostBig (bytes.getD 8 0) (bytes.getD 9 0)
          (bytes.getD 10 0) (bytes.getD 11 0) *
        headerField hostBig (bytes.getD 12 0) (bytes.getD 13 0)
          (bytes.getD 14 0) (bytes.getD 15 0) < 2147483648 →
      (bytes.drop 16).length <
        headerField hostBig (bytes.getD 4 0) (bytes.getD 5 0)
            (bytes.getD 6 0) (bytes.getD 7 0) *
          headerField hostBig (bytes.getD 8 0) (bytes.getD 9 0)
            (bytes.getD 10 0) (bytes.getD 11 0) *
          headerField hostBig (bytes.getD 12 0) (bytes.getD 13 0)
            (bytes.getD 14 0) (bytes.getD 15 0) →
      mnist_load_images hostBig true (.content bytes) =
        ⟨zeroImages, true, true, true, true, true, true⟩) := by
  constructor
  · intro hostBig bytes hlen hmagic hshort
    simp only [List.getD_eq_getElem?_getD] at hmagic hshort
    simp only [List.length_drop] at hshort
    simp [mnist_load_labels, hlen, hmagic, hshort]
  · intro hostBig bytes hlen hmagic hfit hshort
    simp only [List.getD_eq_getElem?_getD] at hmagic hfit hshort
    simp only [List.length_drop] at hshort
    have hsz := intToSizeT_toInt32_of_lt _ hfit
    simp [mnist_load_images, hlen, hmagic, hsz, hshort]

/-- Witness for C6: a label file declaring 3 labels with 1 byte present
and an image file declaring 2 images of 2 x 2 with 3 payload bytes
present are both rejected and their buffers freed. -/
theorem c6_witness :
    mnist_load_labels true true (.content [0, 0, 8, 1, 0, 0, 0, 3, 7]) =
      ⟨zeroLabels, true, true, true, true, true, true⟩ ∧
    mnist_load_images true true
      (.content [0, 0, 8, 3, 0, 0, 0, 2, 0, 0, 0, 2, 0, 0, 0, 2,
        1, 2, 3]) =
      ⟨zeroImages, true, true, true, true, true, true⟩ :=
  ⟨c6_truncation_rejected.1 true _ (by decide) (by decide) (by decide),
   c6_truncation_rejected.2 true _ (by decide) (by decide) (by decide)
     (by decide)⟩

/-- Reduction of `mnist_load_labels` on its success path: with a readable
header, the label magic number, a successful allocation and a payload at
least as long as declared, the call returns the filled result with every
effect flag set except `bufFreed`. -/
lemma load_labels_success (hostBig : Bool) (bytes : List Nat)
    (hlen : ¬ bytes.length < 8)
    (hmagic : headerField hostBig (bytes.getD 0 0) (bytes.getD 1 0)
      (bytes.getD 2 0) (bytes.getD 3 0) = 0x00000801)
    (hlong : ¬ (bytes.drop 8).length <
      headerField hostBig (bytes.getD 4 0) (bytes.getD 5 0) (bytes.getD 6 0)
        (bytes.getD 7 0)) :
    mnist_load_labels hostBig true (.content bytes) =
      ⟨⟨toInt32 (headerField hostBig (bytes.getD 4 0) (bytes.getD 5 0)
          (bytes.getD 6 0) (bytes.getD 7 0)),
        some ((bytes.drop 8).take (headerField hostBig (bytes.getD 4 0)
          (bytes.getD 5 0) (bytes.getD 6 0) (bytes.getD 7 0))), true⟩,
        true, true, true, true, true, false⟩ := by
  simp only [List.getD_eq_getElem?_getD] at hmagic hlong
  simp only [List.length_drop] at hlong
  simp [mnist_load_labels, hlen, hmagic, hlong]

/-- C4 counterexample: a valid label file declaring 2 ^ 31 items with a
full payload is accepted, but the `int count` field wraps to -2 ^ 31
instead of the declared item count (`beU32 128 0 0 0 = 2 ^ 31`), so
neither `count = number_of_items` nor `bytes.length = count` holds. -/
theorem c4_counterexample :
    (mnist_load_labels true true
      (.content ([0, 0, 8, 1, 128, 0, 0, 0] ++
        List.replicate 2147483648 0))).result.valid = true ∧
    (mnist_load_labels true true
      (.content ([0, 0, 8, 1, 128, 0, 0, 0] ++
        List.replicate 2147483648 0))).result.count = -2147483648 ∧
    beU32 128 0 0 0 = 2147483648 := by
  have h0 : ([0, 0, 8, 1, 128, 0, 0, 0] ++
      List.replicate 2147483648 (0 : Nat)).getD 0 0 = 0 := by
    rw [List.getD_eq_getElem?_getD, List.getElem?_append_left (by simp)]
    rfl
  have h1 : ([0, 0, 8, 1, 128, 0, 0, 0] ++
      List.replicate 2147483648 (0 : Nat)).getD 1 0 = 0 := by
    rw [List.getD_eq_getElem?_getD, List.getElem?_append_left (by simp)]
    rfl
  have h2 : ([0, 0, 8, 1, 128, 0, 0, 0] ++
      List.replicate 2147483648 (0 : Nat)).getD 2 0 = 8 := by
    rw [List.getD_eq_getElem?_getD, List.getElem?_append_left (by simp)]
    rfl
  have h3 : ([0, 0, 8, 1, 128, 0, 0, 0] ++
      List.replicate 2147483648 (0 : Nat)).getD 3 0 = 1 := by
    rw [List.getD_eq_getElem?_getD, List.getElem?_append_left (by simp)]
    rfl
  have h4 : ([0, 0, 8, 1, 128, 0, 0, 0] ++
      List.replicate 2147483648 (0 : Nat)).getD 4 0 = 128 := by
    rw [List.getD_eq_getElem?_getD, List.getElem?_append_left (by simp)]
    rfl
  have h5 : ([0, 0, 8, 1, 128, 0, 0, 0] ++
      List.replicate 2147483648 (0 : Nat)).getD 5 0 = 0 := by
    rw [List.getD_eq_getElem?_getD, List.getElem?_append_left (by simp)]
    rfl
  have h6 : ([0, 0, 8, 1, 128, 0, 0, 0] ++
      List.replicate 2147483648 (0 : Nat)).getD 6 0 = 0 := by
    rw [List.getD_eq_getElem?_getD, List.getElem?_append_left (by simp)]
    rfl
  have h7 : ([0, 0, 8, 1, 128, 0, 0, 0] ++
      List.replicate 2147483648 (0 : Nat)).getD 7 0 = 0 := by
    rw [List.getD_eq_getElem?_getD, List.getElem?_append_left (by simp)]
    rfl
  have hlen : ¬ ([0, 0, 8, 1, 128, 0, 0, 0] ++
      List.replicate 2147483648 (0 : Nat)).length < 8 := by
    rw [List.length_append, List.length_replicate]
    omega
  have hdrop : ([0, 0, 8, 1, 128, 0, 0, 0] ++
      List.replicate 2147483648 (0 : Nat)).drop 8 =
      List.replicate 2147483648 0 := List.drop_left' rfl
  have hmagic : headerField true
      (([0, 0, 8, 1, 128, 0, 0, 0] ++
        List.replicate 2147483648 (0 : Nat)).getD 0 0)
      (([0, 0, 8, 1, 128, 0, 0, 0] ++
        List.replicate 2147483648 (0 : Nat)).getD 1 0)
      (([0, 0, 8, 1, 128, 0, 0, 0] ++
        List.replicate 2147483648 (0 : Nat)).getD 2 0)
      (([0, 0, 8, 1, 128, 0, 0, 0] ++
        List.replicate 2147483648 (0 : Nat)).getD 3 0) = 0x00000801 := by
    rw [h0, h1, h2, h3]
    decide
  have hitems : headerField true
      (([0, 0, 8, 1, 128, 0, 0, 0] ++
        List.replicate 2147483648 (0 : Nat)).getD 4 0)
      (([0, 0, 8, 1, 128, 0, 0, 0] ++
        List.replicate 2147483648 (0 : Nat)).getD 5 0)
      (([0, 0, 8, 1, 128, 0, 0, 0] ++
        List.replicate 2147483648 (0 : Nat)).getD 6 0)
      (([0, 0, 8, 1, 128, 0, 0, 0] ++
        List.replicate 2147483648 (0 : Nat)).getD 7 0) = 2147483648 := by
    rw [h4, h5, h6, h7]
    decide
  have hlong : ¬ (([0, 0, 8, 1, 128, 0, 0, 0] ++
      List.replicate 2147483648 (0 : Nat)).drop 8).length <
      headerField true
        (([0, 0, 8, 1, 128, 0, 0, 0] ++
          List.replicate 2147483648 (0 : Nat)).getD 4 0)
        (([0, 0, 8, 1, 128, 0, 0, 0] ++
          List.replicate 2147483648 (0 : Nat)).getD 5 0)
        (([0, 0, 8, 1, 128, 0, 0, 0] ++
          List.replicate 2147483648 (0 : Nat)).getD 6 0)
        (([0, 0, 8, 1, 128, 0, 0, 0] ++
          List.replicate 2147483648 (0 : Nat)).getD 7 0) := by
    rw [hitems, hdrop, List.length_replicate]
    omega
  rw [load_labels_success true _ hlen hmagic hlong, hitems]
  exact ⟨rfl, by decide, by decide⟩

/-- C4 amended: for every valid label file whose declared item count is
below 2 ^ 31, the loader returns valid = true, a count equal to the
declared number_of_items, and a buffer of exactly that many bytes. (The
counterexample shows the stored `int` count wraps for declared counts of
2 ^ 31 and above.) -/
theorem c4_label_load_correct :
    ∀ (hostBig : Bool) (bytes : List Nat),
      ¬ bytes.length < 8 →
      headerField hostBig (bytes.getD 0 0) (bytes.getD 1 0) (bytes.getD 2 0)
        (bytes.getD 3 0) = 0x00000801 →
      headerField hostBig (bytes.getD 4 0) (bytes.getD 5 0) (bytes.getD 6 0)
        (bytes.getD 7 0) < 2147483648 →
      ¬ (bytes.drop 8).length <
        headerField hostBig (bytes.getD 4 0) (bytes.getD 5 0)
          (bytes.getD 6 0) (bytes.getD 7 0) →
      (mnist_load_labels hostBig true (.content bytes)).result.valid =
          true ∧
      (mnist_load_labels hostBig true (.content bytes)).result.count =
        (headerField hostBig (bytes.getD 4 0) (bytes.getD 5 0)
          (bytes.getD 6 0) (bytes.getD 7 0) : Int) ∧
      ∃ bs,
        (mnist_load_labels hostBig true (.content bytes)).result.data =
          some bs ∧
        bs.length = headerField hostBig (bytes.getD 4 0) (bytes.getD 5 0)
          (bytes.getD 6 0) (bytes.getD 7 0) := by
  intro hostBig bytes hlen hmagic hcount hlong
  rw [load_labels_success hostBig bytes hlen hmagic hlong]
  refine ⟨rfl, toInt32_of_lt _ hcount, ?_⟩
  refine ⟨(bytes.drop 8).take (headerField hostBig (bytes.getD 4 0)
    (bytes.getD 5 0) (bytes.getD 6 0) (bytes.getD 7 0)), rfl, ?_⟩
  rw [List.length_take, List.length_drop]
  rw [List.length_drop] at hlong
  omega

/-- Witness for C4: a 2-label file loads with count 2 and a 2-byte
buffer. -/
theorem c4_witness :
    (mnist_load_labels true true
      (.content [0, 0, 8, 1, 0, 0, 0, 2, 7, 3])).result.count = 2 := by
  have h := (c4_label_load_correct true [0, 0, 8, 1, 0, 0, 0, 2, 7, 3]
    (by decide) (by decide) (by decide) (by decide)).2.1
  exact h.trans (by decide)

lemma swap_endianness_u32_lt (v : Nat) (hv : v < 4294967296) :
    swap_endianness_u32 v < 4294967296 := by
  rw [swap_endianness_u32_eq v hv]
  omega

lemma bytes_extract (a b c d : Nat) (ha : a < 256) (hb : b < 256)
    (hc : c < 256) (_hd : d < 256) :
    (d * 16777216 + c * 65536 + b * 256 + a) % 256 = a ∧
    (d * 16777216 + c * 65536 + b * 256 + a) / 256 % 256 = b ∧
    (d * 16777216 + c * 65536 + b * 256 + a) / 65536 % 256 = c ∧
    (d * 16777216 + c * 65536 + b * 256 + a) / 16777216 = d := by
  refine ⟨?_, ?_, ?_, ?_⟩ <;> omega

/-- C7: the 32-bit normalization is a byte reversal and an involution:
the byte sequence of `swap_endianness_u32 v` is the reverse of the byte
sequence of `v`, applying the swap twice returns `v` unchanged, and on a
little-endian host the normalized header field equals the big-endian
(wire) value of its four bytes. -/
theorem c7_swap_byte_reversal_involution :
    ∀ v : Nat, v < 4294967296 →
      u32BytesLE (swap_endianness_u32 v) = (u32BytesLE v).reverse ∧
      swap_endianness_u32 (swap_endianness_u32 v) = v ∧
      ∀ b0 b1 b2 b3 : Nat, b0 < 256 → b1 < 256 → b2 < 256 → b3 < 256 →
        headerField false b0 b1 b2 b3 = beU32 b0 b1 b2 b3 := by
  intro v hv
  obtain ⟨e1, e2, e3, e4⟩ := bytes_extract (v / 16777216) (v / 65536 % 256)
    (v / 256 % 256) (v % 256) (by omega) (by omega) (by omega) (by omega)
  refine ⟨?_, ?_, ?_⟩
  · rw [swap_endianness_u32_eq v hv]
    simp only [u32BytesLE, List.reverse_cons, List.reverse_nil,
      List.nil_append, List.cons_append, List.cons.injEq, and_true]
    rw [e1, e2, e3, e4]
    refine ⟨by omega, rfl, rfl, by omega⟩
  · have hs := swap_endianness_u32_lt v hv
    rw [swap_endianness_u32_eq _ hs, swap_endianness_u32_eq v hv,
      e1, e2, e3, e4]
    clear e1 e2 e3 e4 hs
    omega
  · intro b0 b1 b2 b3 hb0 hb1 hb2 hb3
    exact headerField_eq_beU32 false b0 b1 b2 b3 hb0 hb1 hb2 hb3

/-- Witness for C7 at v = 0x01020304: bytes reverse, double swap is the
identity, and the wire field [1, 2, 3, 4] normalizes to its big-endian
value on a little-endian host. -/
theorem c7_witness :
    u32BytesLE (swap_endianness_u32 16909060) =
      (u32BytesLE 16909060).reverse ∧
    swap_endianness_u32 (swap_endianness_u32 16909060) = 16909060 ∧
    headerField false 1 2 3 4 = beU32 1 2 3 4 := by
  have h := c7_swap_byte_reversal_involution 16909060 (by norm_num)
  exact ⟨h.1, h.2.1, h.2.2 1 2 3 4 (by norm_num) (by norm_num) (by norm_num)
    (by norm_num)⟩

/-- C8: for a valid image set (buffer of exactly count * rows * columns
bytes) and any index below count, the view returned by `mnist_get_image`
keeps the set's dimensions and is exactly the byte segment of the owning
buffer starting at offset rows * columns * index and spanning
rows * columns bytes, element for element. Concretely, on the crafted
2-image 2 x 2 file with pixels [1..8] the view at index 1 is [5, 6, 7, 8],
and on the [7, 3] label file `mnist_get_label` reads back 7 and 3. -/
theorem c8_view_offset_and_roundtrip :
    (∀ (N R C I : Nat) (bs : List Nat) (vld : Bool),
      bs.length = N * R * C → I < N →
      (mnist_get_image ⟨(N : Int), (R : Int), (C : Int), some bs, vld⟩
        (I : Int)).rows = (R : Int) ∧
      (mnist_get_image ⟨(N : Int), (R : Int), (C : Int), some bs, vld⟩
        (I : Int)).columns = (C : Int) ∧
      (mnist_get_image ⟨(N : Int), (R : Int), (C : Int), some bs, vld⟩
        (I : Int)).data = (bs.drop (R * C * I)).take (R * C) ∧
      (mnist_get_image ⟨(N : Int), (R : Int), (C : Int), some bs, vld⟩
        (I : Int)).data.length = R * C ∧
      ∀ j : Nat, j < R * C →
        (mnist_get_image ⟨(N : Int), (R : Int), (C : Int), some bs, vld⟩
          (I : Int)).data.getD j 0 = bs.getD (R * C * I + j) 0) ∧
    (mnist_get_image (mnist_load_images true true
      (.content [0, 0, 8, 3, 0, 0, 0, 2, 0, 0, 0, 2, 0, 0, 0, 2,
        1, 2, 3, 4, 5, 6, 7, 8])).result 1).data = [5, 6, 7, 8] ∧
    mnist_get_label (mnist_load_labels true true
      (.content [0, 0, 8, 1, 0, 0, 0, 2, 7, 3])).result 0 = some 7 ∧
    mnist_get_label (mnist_load_labels true true
      (.content [0, 0, 8, 1, 0, 0, 0, 2, 7, 3])).result 1 = some 3 := by
  refine ⟨?_, by decide, by decide, by decide⟩
  intro N R C I bs vld hlen hIN
  have hofs : ((R : Int) * (C : Int) * (I : Int)).toNat = R * C * I := by
    rw [← Nat.cast_mul, ← Nat.cast_mul, Int.toNat_natCast]
  have hrc : ((R : Int) * (C : Int)).toNat = R * C := by
    rw [← Nat.cast_mul, Int.toNat_natCast]
  have hdata : (mnist_get_image ⟨(N : Int), (R : Int), (C : Int), some bs,
      vld⟩ (I : Int)).data = (bs.drop (R * C * I)).take (R * C) := by
    simp only [mnist_get_image]
    rw [hofs, hrc]
  refine ⟨rfl, rfl, hdata, ?_, ?_⟩
  · rw [hdata, List.length_take, List.length_drop, hlen]
    have hlen2 : N * R * C = N * (R * C) := by ring
    rw [hlen2]
    obtain ⟨P, hP⟩ : ∃ P, R * C = P := ⟨_, rfl⟩
    rw [hP]
    obtain ⟨T, hT⟩ : ∃ T, P * I = T := ⟨_, rfl⟩
    obtain ⟨Q, hQ⟩ : ∃ Q, N * P = Q := ⟨_, rfl⟩
    have key : T + P ≤ Q := by
      rw [← hT, ← hQ]
      calc P * I + P = (I + 1) * P := by ring
      _ ≤ N * P := Nat.mul_le_mul_right P hIN
    rw [hT, hQ]
    omega
  · intro j hj
    rw [hdata, List.getD_eq_getElem?_getD, List.getD_eq_getElem?_getD,
      List.getElem?_take_of_lt hj, List.getElem?_drop]

/-- Witness for C8: on the 2-image 2 x 2 set, the view at index 1 reads
its last byte from buffer position 2 * 2 * 1 + 3 = 7. -/
theorem c8_witness :
    (mnist_get_image ⟨2, 2, 2, some [1, 2, 3, 4, 5, 6, 7, 8], true⟩
      1).data.getD 3 0 = 8 := by
  have h := (c8_view_offset_and_roundtrip.1 2 2 2 1 [1, 2, 3, 4, 5, 6, 7, 8]
    true (by decide) (by decide)).2.2.2.2 3 (by decide)
  exact h.trans (by decide)

/-- C9: rendering is a pure function of the view and the threshold (the
embedding is a function, so equal inputs give equal grids), and it
classifies every pixel by the `v >= threshold` rule: the grid has one row
per image row, each row one glyph per column, and the glyph at
(row, col) is `ink` exactly when `threshold ≤ data[col + row * columns]`
and `blank` exactly otherwise. -/
theorem c9_render_pixel_classification :
    ∀ (image : mnist_image) (threshold : Nat),
      (mnist_print_image image threshold).length = image.rows.toNat ∧
      ∀ row col : Nat, row < image.rows.toNat →
        col < image.columns.toNat →
        ((mnist_print_image image threshold).getD row []).length =
          image.columns.toNat ∧
        (((mnist_print_image image threshold).getD row []).getD col
            PixelGlyph.blank = PixelGlyph.ink ↔
          threshold ≤ image.data.getD
            (col + row * image.columns.toNat) 0) ∧
        (((mnist_print_image image threshold).getD row []).getD col
            PixelGlyph.blank = PixelGlyph.blank ↔
          image.data.getD (col + row * image.columns.toNat) 0 <
            threshold) := by
  intro image threshold
  constructor
  · simp [mnist_print_image]
  intro row col hrow hcol
  have hrowD : (mnist_print_image image threshold).getD row [] =
      (List.range image.columns.toNat).map fun c =>
        if threshold ≤ image.data.getD (c + row * image.columns.toNat) 0
        then PixelGlyph.ink else PixelGlyph.blank := by
    rw [List.getD_eq_getElem?_getD, mnist_print_image,
      List.getElem?_map, List.getElem?_range hrow]
    rfl
  have hcell : ((mnist_print_image image threshold).getD row []).getD col
      PixelGlyph.blank =
      if threshold ≤ image.data.getD (col + row * image.columns.toNat) 0
      then PixelGlyph.ink else PixelGlyph.blank := by
    rw [hrowD, List.getD_eq_getElem?_getD, List.getElem?_map,
      List.getElem?_range hcol]
    rfl
  refine ⟨by rw [hrowD, List.length_map, List.length_range], ?_, ?_⟩
  · rw [hcell]
    by_cases h : threshold ≤ image.data.getD
      (col + row * image.columns.toNat) 0
    · simp [h]
    · simp [h]
  · rw [hcell]
    by_cases h : threshold ≤ image.data.getD
      (col + row * image.columns.toNat) 0
    · simp [h]
    · simp [h]

/-- Witness for C9: in a 2 x 2 view with pixels [0, 200, 255, 1] and
threshold 128, the pixel at row 1, column 0 (value 255) renders as ink. -/
theorem c9_witness :
    ((mnist_print_image ⟨2, 2, [0, 200, 255, 1]⟩ 128).getD 1 []).getD 0
      PixelGlyph.blank = PixelGlyph.ink := by
  have h := ((c9_render_pixel_classification ⟨2, 2, [0, 200, 255, 1]⟩
    128).2 1 0 (by decide) (by decide)).2.1
  exact h.mpr (by decide)

end Mnist
